import Mathlib

/-!
Verification of the log-filter matching core against its specification.

The Python sources are shallowly embedded: pure functions become Lean
functions, the streaming record assembler becomes explicit state passing
over the list of input lines, fallible code returns `Except`/`Option`, and
the foreign `re` module is abstracted as a compile oracle
`String → Option (String → Bool)` (a successfully compiled pattern is its
search predicate).
-/

deriving instance DecidableEq for Except

namespace LogFilter

/-! ## Basic string helpers -/

/-- UTF-8 byte length of a string, `len(s.encode("utf-8"))` in the source. -/
def byteLen (s : String) : Nat := (s.data.map Char.utf8Size).sum

/-- Sum of the UTF-8 byte lengths of a list of lines. -/
def sumBytes (ls : List String) : Nat := (ls.map byteLen).sum

/-- ASCII lower-casing, modelling `str.lower()` on the ASCII texts used here. -/
def pyLower (s : String) : String := ⟨s.data.map Char.toLower⟩

/-- Python substring containment `p in t`: some contiguous run of `t` equals `p`. -/
def substrCheck (p t : String) : Bool :=
  (List.range (t.data.length + 1)).any fun i =>
    (t.data.drop i).take p.data.length == p.data

/-! ## Expression evaluator (src/log_filter/core/evaluator.py)

The source AST is a tuple `("WORD", p) | ("NOT", x) | ("AND", x, y) | ("OR", x, y)`;
the parser only ever constructs these well-formed shapes, which the inductive
captures. -/

inductive ASTNode where
  | word (pat : String)
  | not (x : ASTNode)
  | and (x y : ASTNode)
  | or (x y : ASTNode)
deriving DecidableEq

/-- Evaluation errors raised by `ExpressionEvaluator` on well-formed AST nodes:
`re.error` wrapped as `EvaluationError(f"Invalid regex pattern ...")`. -/
inductive EvalErr where
  | invalidRegex (pat : String)
deriving DecidableEq

/-- The two constructor flags of `ExpressionEvaluator.__init__`
(`ignore_case`, `use_regex`).  The class has no `word_boundary` or
`strip_quotes` parameter in the source. -/
structure EvalConfig where
  ignoreCase : Bool := false
  useRegex : Bool := false
deriving DecidableEq

/-- Embeds `ExpressionEvaluator._match_regex`: use the cached compiled pattern if
present, otherwise compile; a compilation failure raises `EvaluationError`. -/
def matchRegex (compile : String → Option (String → Bool))
    (cache : List (String × (String → Bool))) (pat text : String) :
    Except EvalErr Bool :=
  match cache.lookup pat with
  | some r => .ok (r text)
  | none =>
    match compile pat with
    | some r => .ok (r text)
    | none => .error (.invalidRegex pat)

/-- Embeds `ExpressionEvaluator._match_substring`. -/
def matchSubstring (cfg : EvalConfig) (pat text : String) : Bool :=
  if cfg.ignoreCase then substrCheck (pyLower pat) (pyLower text)
  else substrCheck pat text

/-- Embeds `ExpressionEvaluator._match_pattern`: empty pattern never matches;
regex mode dispatches to `_match_regex`, otherwise `_match_substring`. -/
def matchPattern (compile : String → Option (String → Bool))
    (cache : List (String × (String → Bool))) (cfg : EvalConfig)
    (pat text : String) : Except EvalErr Bool :=
  if pat = "" then .ok false
  else if cfg.useRegex then matchRegex compile cache pat text
  else .ok (matchSubstring cfg pat text)

/-- Embeds `ExpressionEvaluator._evaluate_node`: WORD matches the pattern, NOT negates,
AND and OR are Python's short-circuiting `and` / `or`. -/
def evaluateNode (compile : String → Option (String → Bool))
    (cache : List (String × (String → Bool))) (cfg : EvalConfig) :
    ASTNode → String → Except EvalErr Bool
  | .word p, text => matchPattern compile cache cfg p text
  | .not x, text => do
      let b ← evaluateNode compile cache cfg x text
      pure (!b)
  | .and x y, text => do
      let a ← evaluateNode compile cache cfg x text
      if a then evaluateNode compile cache cfg y text else pure false
  | .or x y, text => do
      let a ← evaluateNode compile cache cfg x text
      if a then pure true else evaluateNode compile cache cfg y text

/-- Accumulator pass of `compile_patterns_from_ast`: walk the AST, compile each
distinct non-empty WORD pattern, and silently skip the ones that fail to
compile. -/
def collectCompile (compile : String → Option (String → Bool)) :
    ASTNode → List (String × (String → Bool)) → List (String × (String → Bool))
  | .word p, acc =>
      if p ≠ "" ∧ (acc.lookup p).isNone then
        match compile p with
        | some r => acc ++ [(p, r)]
        | none => acc
      else acc
  | .and x y, acc => collectCompile compile y (collectCompile compile x acc)
  | .or x y, acc => collectCompile compile y (collectCompile compile x acc)
  | .not x, acc => collectCompile compile x acc

/-- Embeds `compile_patterns_from_ast` (src/log_filter/core/evaluator.py, lines 10-59). -/
def compilePatternsFromAst (compile : String → Option (String → Bool))
    (ast : ASTNode) : List (String × (String → Bool)) :=
  collectCompile compile ast []

/-- Embeds `SearchConfig` (src/log_filter/config/models.py): the configuration does
declare `word_boundary` and `strip_quotes` flags. -/
structure SearchConfig where
  expression : String
  ignoreCase : Bool := false
  useRegex : Bool := false
  wordBoundary : Bool := false
  stripQuotes : Bool := false
deriving DecidableEq

/-- The evaluator call made by `_process_file_worker`
(src/log_filter/processing/pipeline.py, line 108):
`evaluate(ast, record.content, config.search.ignore_case, config.search.use_regex)`.
Only `ignore_case` and `use_regex` are forwarded; the `word_boundary` and
`strip_quotes` fields of the search configuration never reach the evaluator,
and the evaluator itself has no parameters for them. -/
def pipelineEvaluate (compile : String → Option (String → Bool))
    (sc : SearchConfig) (ast : ASTNode) (text : String) : Except EvalErr Bool :=
  evaluateNode compile [] { ignoreCase := sc.ignoreCase, useRegex := sc.useRegex } ast text

/-- Model of the foreign Python `re` module, adequate for the literal patterns
appearing in the theorems below: a pattern containing "[" fails to compile
(unterminated character class, as in the repository's own test pattern
"[invalid"), and bracket-free patterns — which contain no regex
metacharacters where used below — compile to plain substring search, which is
what `re.search` performs on a literal pattern. -/
def reModel (p : String) : Option (String → Bool) :=
  if p.data.contains '[' then none
  else some (fun t => substrCheck p t)

/-! ## Spec-modelled matching modes

The evaluator in the source has no word-boundary or quote-stripping mode, so
the intended semantics of those modes is modelled from the spec for
comparison. -/

/-- Modelled from the spec: a word character is `[A-Za-z0-9_]`. -/
def isWordChar (c : Char) : Bool := c.isAlpha || c.isDigit || c == '_'

/-- Modelled from the spec: the regex `\b<escape(p)>\b` finds at least one
match in `text` — some occurrence of the literal `p` has a string edge or a
non-word character on both sides.  (Adequate for patterns whose first and
last characters are word characters, as used below.) -/
def wbMatch (p text : String) : Bool :=
  let t := text.data
  let q := p.data
  (List.range (t.length + 1)).any fun i =>
    decide ((t.drop i).take q.length = q)
    && (decide (i = 0) || !isWordChar (t.getD (i - 1) ' '))
    && (decide (i + q.length = t.length) || !isWordChar (t.getD (i + q.length) ' '))

/-- The three quote characters of the spec: double quote, single quote, backtick. -/
def isQuoteChar (c : Char) : Bool :=
  c == Char.ofNat 34 || c == Char.ofNat 39 || c == Char.ofNat 96

/-- Fuel-driven worker for `stripRuns`; the fuel is an upper bound on the
number of steps, each of which consumes at least one character. -/
def stripRunsGo : Nat → List Char → List Char
  | 0, l => l
  | _ + 1, [] => []
  | fuel + 1, c :: rest =>
    if isQuoteChar c then
      let interior := rest.takeWhile (fun d => !isQuoteChar d)
      let remainder := rest.drop interior.length
      match remainder with
      | [] => interior
      | _ :: rest2 => interior ++ stripRunsGo fuel rest2
    else c :: stripRunsGo fuel rest

/-- Modelled from the spec: "strip a leading and trailing `"`, `'`, or
backtick from every maximal quoted run before matching" — each maximal run
delimited by a pair of quote characters loses its delimiters (an unpaired
trailing quote is also stripped). -/
def stripRuns (s : String) : String := ⟨stripRunsGo s.data.length s.data⟩

/-- The concrete JSON record of spec scenario 3, `{"event":"MOVE_SNAPSHOT"}`. -/
def jsonSnapshotText : String := "\x7b\"event\":\"MOVE_SNAPSHOT\"\x7d"

/-- The same record with content changed to `"event":"MOVE"`. -/
def jsonMoveText : String := "\x7b\"event\":\"MOVE\"\x7d"

/-! ## Streaming record parser (src/log_filter/processing/record_parser.py) -/

/-- A Python `datetime` value as produced by `datetime.strptime`: a naive
instant has `tz = none`, an aware one carries its UTC offset in minutes. -/
structure PyDateTime where
  year : Nat
  month : Nat
  day : Nat
  hour : Nat
  minute : Nat
  second : Nat
  micro : Nat
  tz : Option Int
deriving DecidableEq

/-- Numeric value of a decimal digit character. -/
def dv (c : Char) : Nat := c.toNat - 48

/-- Whether `y` is a Gregorian leap year. -/
def isLeapYear (y : Nat) : Bool := (y % 4 == 0 && y % 100 != 0) || y % 400 == 0

/-- Days in a month, used by `datetime` to validate the day field. -/
def daysInMonth (y m : Nat) : Nat :=
  if m == 2 then (if isLeapYear y then 29 else 28)
  else if m == 4 || m == 6 || m == 9 || m == 11 then 30
  else 31

/-- The fixed-width `%Y-%m-%d %H:%M:%S` head shared by the three
`datetime.strptime` format specifiers tried by `_create_record`, with
`datetime`'s field validation; returns the parsed fields and the unconsumed
suffix.  (Model restricted to the zero-padded two-digit forms that the record
start pattern's capture groups produce.) -/
def parseBase : List Char → Option ((Nat × Nat × Nat × Nat × Nat × Nat) × List Char)
  | y1 :: y2 :: y3 :: y4 :: u1 :: o1 :: o2 :: u2 :: d1 :: d2 :: sp ::
      h1 :: h2 :: k1 :: i1 :: i2 :: k2 :: e1 :: e2 :: rest =>
    if y1.isDigit && y2.isDigit && y3.isDigit && y4.isDigit
        && u1 == '-' && o1.isDigit && o2.isDigit && u2 == '-'
        && d1.isDigit && d2.isDigit && sp == ' '
        && h1.isDigit && h2.isDigit && k1 == ':'
        && i1.isDigit && i2.isDigit && k2 == ':'
        && e1.isDigit && e2.isDigit then
      let y := dv y1 * 1000 + dv y2 * 100 + dv y3 * 10 + dv y4
      let mo := dv o1 * 10 + dv o2
      let d := dv d1 * 10 + dv d2
      let h := dv h1 * 10 + dv h2
      let mi := dv i1 * 10 + dv i2
      let se := dv e1 * 10 + dv e2
      if 1 ≤ mo && mo ≤ 12 && 1 ≤ d && d ≤ daysInMonth y mo
          && h ≤ 23 && mi ≤ 59 && se ≤ 59 then
        some ((y, mo, d, h, mi, se), rest)
      else none
    else none
  | _ => none

/-- Specifier `%f`: one to six digits (greedy), scaled to microseconds; returns the value
and the unconsumed suffix. -/
def parseMicro (l : List Char) : Option (Nat × List Char) :=
  let ds := (l.takeWhile Char.isDigit).take 6
  if ds.isEmpty then none
  else some ((ds.foldl (fun a c => a * 10 + dv c) 0) * 10 ^ (6 - ds.length), l.drop ds.length)

/-- Specifier `%z` in the `[+-]HHMM` form produced by the log timestamps: a sign and
four digits, yielding the offset in minutes. -/
def parseTz (l : List Char) : Option (Int × List Char) :=
  match l with
  | sg :: a1 :: a2 :: b1 :: b2 :: rest =>
    if (sg == '+' || sg == '-') && a1.isDigit && a2.isDigit && b1.isDigit && b2.isDigit
        && (dv b1 * 10 + dv b2) ≤ 59 then
      let mins : Int := (dv a1 * 10 + dv a2) * 60 + (dv b1 * 10 + dv b2)
      some (if sg == '-' then -mins else mins, rest)
    else none
  | _ => none

/-- Embeds `datetime.strptime(s, "%Y-%m-%d %H:%M:%S.%f%z")`: an aware instant. -/
def parseFmt1 (s : String) : Option PyDateTime :=
  match parseBase s.data with
  | none => none
  | some ((y, mo, d, h, mi, se), rest) =>
    match rest with
    | [] => none
    | dot :: rest1 =>
      if dot == '.' then
        match parseMicro rest1 with
        | none => none
        | some (f, rest2) =>
          match parseTz rest2 with
          | none => none
          | some (off, rest3) =>
            if rest3.isEmpty then some ⟨y, mo, d, h, mi, se, f, some off⟩ else none
      else none

/-- Embeds `datetime.strptime(s, "%Y-%m-%d %H:%M:%S.%f")`: naive, with microseconds. -/
def parseFmt2 (s : String) : Option PyDateTime :=
  match parseBase s.data with
  | none => none
  | some ((y, mo, d, h, mi, se), rest) =>
    match rest with
    | [] => none
    | dot :: rest1 =>
      if dot == '.' then
        match parseMicro rest1 with
        | none => none
        | some (f, rest2) =>
          if rest2.isEmpty then some ⟨y, mo, d, h, mi, se, f, none⟩ else none
      else none

/-- Embeds `datetime.strptime(s, "%Y-%m-%d %H:%M:%S")`: naive, seconds precision. -/
def parseFmt3 (s : String) : Option PyDateTime :=
  match parseBase s.data with
  | none => none
  | some ((y, mo, d, h, mi, se), rest) =>
    if rest.isEmpty then some ⟨y, mo, d, h, mi, se, 0, none⟩ else none

/-- The `for fmt in [...]` loop of `_create_record`: try the three format
specifiers in order, keeping the first success. -/
def tryFormats (s : String) : Option PyDateTime :=
  match parseFmt1 s with
  | some dt => some dt
  | none =>
    match parseFmt2 s with
    | some dt => some dt
    | none => parseFmt3 s

/-- Python's whitespace class for `str.strip()` and the regex `\s`
(ASCII portion). -/
def isPySpace (c : Char) : Bool :=
  c == ' ' || c == '\t' || c == '\n' || c == '\r' || c == Char.ofNat 11 || c == Char.ofNat 12

/-- Embeds `str.strip()`: remove leading and trailing whitespace. -/
def pyStrip (s : String) : String :=
  ⟨((s.data.dropWhile isPySpace).reverse.dropWhile isPySpace).reverse⟩

/-- The capture groups of the record start pattern:
`date`, `time` and `level` strings. -/
structure Groups where
  dateStr : String
  timeStr : String
  level : String
deriving DecidableEq

/-- Embeds `re.match` of `DEFAULT_RECORD_START_PATTERN`
`^(\d{4}-\d{2}-\d{2}) (\d{2}:\d{2}:\d{2})\.\d{3}[+-]\d{4}\s+([A-Z]+)`
against a line: the date group captures only `YYYY-MM-DD`, the time group only
`HH:MM:SS`; the milliseconds and timezone offset are matched but not captured. -/
def defaultStartMatch (line : String) : Option Groups :=
  match line.data with
  | y1 :: y2 :: y3 :: y4 :: u1 :: o1 :: o2 :: u2 :: d1 :: d2 :: sp ::
      h1 :: h2 :: k1 :: i1 :: i2 :: k2 :: e1 :: e2 :: dot ::
      s1 :: s2 :: s3 :: sg :: z1 :: z2 :: z3 :: z4 :: rest =>
    if y1.isDigit && y2.isDigit && y3.isDigit && y4.isDigit
        && u1 == '-' && o1.isDigit && o2.isDigit && u2 == '-'
        && d1.isDigit && d2.isDigit && sp == ' '
        && h1.isDigit && h2.isDigit && k1 == ':'
        && i1.isDigit && i2.isDigit && k2 == ':'
        && e1.isDigit && e2.isDigit && dot == '.'
        && s1.isDigit && s2.isDigit && s3.isDigit
        && (sg == '+' || sg == '-')
        && z1.isDigit && z2.isDigit && z3.isDigit && z4.isDigit then
      let ws := rest.takeWhile isPySpace
      if ws.isEmpty then none
      else
        let levelRun := (rest.drop ws.length).takeWhile Char.isUpper
        if levelRun.isEmpty then none
        else
          some ⟨⟨[y1, y2, y3, y4, u1, o1, o2, u2, d1, d2]⟩,
                ⟨[h1, h2, k1, i1, i2, k2, e1, e2]⟩, ⟨levelRun⟩⟩
    else none
  | _ => none

/-- Embeds `LogRecord` (src/log_filter/domain/models.py). -/
structure LogRecord where
  content : String
  firstLine : String
  sourceFile : String
  startLine : Nat
  endLine : Nat
  timestamp : Option PyDateTime
  level : Option String
  sizeBytes : Nat
deriving DecidableEq

/-- Embeds `"\n".join(lines)`. -/
def joinLines : List String → String
  | [] => ""
  | [l] => l
  | l :: ls => l ++ "\n" ++ joinLines ls

/-- Embeds `StreamingRecordParser._create_record`: join the buffered lines, stash the
level, and parse the timestamp from `f"{date_str} {time_str}".strip()` with the
three format specifiers (`None` when all fail, the record is built anyway). -/
def mkRecord (ls : List String) (size : Nat) (info : Option Groups)
    (src : String) (startL endL : Nat) : LogRecord :=
  { content := joinLines ls
    firstLine := ls.headD ""
    sourceFile := src
    startLine := startL
    endLine := endL
    timestamp := info.bind fun g => tryFormats (pyStrip (g.dateStr ++ " " ++ g.timeStr))
    level := info.map Groups.level
    sizeBytes := size }

/-- Embeds `RecordSizeExceededError`, carrying the offending size and the limit. -/
structure SizeErr where
  sizeBytes : Nat
  maxBytes : Nat
deriving DecidableEq

/-- The size-limit test `if self.max_record_size_bytes and size > limit`: a
limit of `0` is falsy in Python, so it disables the check. -/
def capExceeded (cap : Option Nat) (size : Nat) : Bool :=
  match cap with
  | none => false
  | some c => c != 0 && size > c

/-- The loop of `StreamingRecordParser.parse_lines` as explicit state passing:
`lineNo` counts processed lines, `buf`/`size`/`info`/`startL` mirror
`current_lines`/`current_size_bytes`/`first_line_info`/`start_line`.  Returns
the records yielded before the generator either finishes or raises
`RecordSizeExceededError`. -/
def parseGo (startM : String → Option Groups) (cap : Option Nat) :
    List String → Nat → List String → Nat → Option Groups → Nat →
    List LogRecord × Option SizeErr
  | [], lineNo, buf, size, info, startL =>
    if buf.isEmpty then ([], none)
    else ([mkRecord buf size info "unknown" startL lineNo], none)
  | l :: rest, lineNo, buf, size, info, startL =>
    let n := lineNo + 1
    match startM l with
    | some g =>
      let emitted := if buf.isEmpty then [] else [mkRecord buf size info "unknown" startL (n - 1)]
      let size' := byteLen l
      if capExceeded cap size' then (emitted, some ⟨size', cap.getD 0⟩)
      else
        let res := parseGo startM cap rest n [l] size' (some g) n
        (emitted ++ res.1, res.2)
    | none =>
      if buf.isEmpty then parseGo startM cap rest n buf size info startL
      else
        let size' := size + byteLen l
        if capExceeded cap size' then ([], some ⟨size', cap.getD 0⟩)
        else parseGo startM cap rest n (buf ++ [l]) size' info startL

/-- Embeds `StreamingRecordParser.parse_lines` with no `file_path` argument, as the
pipeline worker calls it (`source_path = Path("unknown")`). -/
def parseLines (startM : String → Option Groups) (cap : Option Nat)
    (lines : List String) : List LogRecord × Option SizeErr :=
  parseGo startM cap lines 0 [] 0 none 1

/-! ## File workers (src/log_filter/processing/pipeline.py `_process_file_worker`
and src/log_filter/processing/worker.py `FileWorker.process_file`) -/

/-- An exception caught by a worker's `except` clause. -/
inductive WorkerErr where
  | recordSize (e : SizeErr)
  | evalFailed (e : EvalErr)
deriving DecidableEq

/-- The tuple returned by `_process_file_worker`:
`(file_meta, match_count, stats_dict, matched_records, error)` minus the
echoed metadata. -/
structure WorkerOut where
  matchCount : Nat
  statsDict : Option (List (String × Nat))
  matchedRecords : List String
  err : Option WorkerErr
deriving DecidableEq

/-- The record loop shared by both workers: count every record, skip the ones
rejected by the date/time filter, evaluate the expression on the rest, and
accumulate matches; an evaluation error aborts the loop.  Returns
`(records_total, records_matched, records_skipped, match_count,
matched_records, error)`. -/
def workerLoop (evalRec : String → Except EvalErr Bool) (recFilter : LogRecord → Bool)
    (includePath : Bool) (fp : String) :
    List LogRecord → Nat → Nat → Nat → Nat → List String →
    Nat × Nat × Nat × Nat × List String × Option EvalErr
  | [], t, m, sk, mc, acc => (t, m, sk, mc, acc, none)
  | r :: rest, t, m, sk, mc, acc =>
    if !recFilter r then workerLoop evalRec recFilter includePath fp rest (t + 1) m (sk + 1) mc acc
    else
      match evalRec r.content with
      | .error e => (t + 1, m, sk, mc, acc, some e)
      | .ok b =>
        if b then
          let entry := if includePath then fp ++ ": " ++ r.content else r.content
          workerLoop evalRec recFilter includePath fp rest (t + 1) (m + 1) sk (mc + 1) (acc ++ [entry])
        else workerLoop evalRec recFilter includePath fp rest (t + 1) m sk mc acc

/-- The `stats_dict` assembled at the end of `_process_file_worker`; this
worker never calls `add_bytes_processed` or `add_lines_processed`, so those
counters are always zero. -/
def mkStatsDict (t m sk : Nat) : List (String × Nat) :=
  [("files_processed", 1), ("records_total", t), ("records_matched", m),
   ("records_skipped", sk), ("total_bytes_processed", 0), ("total_lines_processed", 0)]

/-- Embeds `_process_file_worker` (pipeline.py, lines 44-135): stream the records,
run the loop, and on ANY exception — including `RecordSizeExceededError`
raised by the record parser mid-stream — fall into the `except` clause that
returns `(file_meta, 0, None, [], error)`, discarding the accumulated
matches and statistics.  Generator semantics: records yielded before the
parser raises are processed first, so an evaluation error can pre-empt the
size error. -/
def processFileWorker (compile : String → Option (String → Bool)) (cfg : EvalConfig)
    (ast : ASTNode) (recFilter : LogRecord → Bool) (startM : String → Option Groups)
    (cap : Option Nat) (includePath : Bool) (fp : String) (lines : List String) :
    WorkerOut :=
  let parsed := parseLines startM cap lines
  let res := workerLoop (fun c => evaluateNode compile [] cfg ast c) recFilter
    includePath fp parsed.1 0 0 0 0 []
  match res.2.2.2.2.2 with
  | some e => { matchCount := 0, statsDict := none, matchedRecords := [], err := some (.evalFailed e) }
  | none =>
    match parsed.2 with
    | some e => { matchCount := 0, statsDict := none, matchedRecords := [], err := some (.recordSize e) }
    | none =>
      { matchCount := res.2.2.2.1
        statsDict := some (mkStatsDict res.1 res.2.1 res.2.2.1)
        matchedRecords := res.2.2.2.2.1
        err := none }

/-- Embeds `FileWorker.process_file` (worker.py, lines 76-209): same loop, but the
`except RecordSizeExceededError` clause returns the `matches_found`
accumulated so far and records the file as skipped with reason
"record-size-exceeded"; any other exception yields reason
"unexpected-error", also keeping the count. -/
def fileWorkerProcess (compile : String → Option (String → Bool)) (cfg : EvalConfig)
    (ast : ASTNode) (recFilter : LogRecord → Bool) (startM : String → Option Groups)
    (cap : Option Nat) (lines : List String) : Nat × Option String :=
  let cache := if cfg.useRegex then compilePatternsFromAst compile ast else []
  let parsed := parseLines startM cap lines
  let res := workerLoop (fun c => evaluateNode compile cache cfg ast c) recFilter
    false "" parsed.1 0 0 0 0 []
  match res.2.2.2.2.2 with
  | some _ => (res.2.2.2.1, some "unexpected-error")
  | none =>
    match parsed.2 with
    | some _ => (res.2.2.2.1, some "record-size-exceeded")
    | none => (res.2.2.2.1, none)

/-! ## Statistics aggregation (pipeline.py `_process_files`) -/

/-- The global counters touched by the per-file merge blocks. -/
structure PStats where
  recordsTotal : Nat
  recordsMatched : Nat
  recordsSkipped : Nat
  totalBytes : Nat
  totalLines : Nat
  filesProcessed : Nat
deriving DecidableEq

/-- Embeds `stats_dict[k]`: a missing key raises `KeyError`. -/
def dictGet (d : List (String × Nat)) (k : String) : Except String Nat :=
  match d.lookup k with
  | some v => .ok v
  | none => .error ("KeyError: " ++ k)

/-- One `self.stats.stats.X += stats_dict[k]` statement: earlier mutations
persist, and a failed lookup stops the block with the error. -/
def addStep (d : List (String × Nat)) (k : String) (f : PStats → Nat → PStats)
    (st : PStats × Option String) : PStats × Option String :=
  match st with
  | (s, some e) => (s, some e)
  | (s, none) =>
    match dictGet d k with
    | .ok v => (f s v, none)
    | .error e => (s, some e)

/-- Run a sequence of merge statements in order. -/
def runMerge (d : List (String × Nat)) (s : PStats)
    (ops : List (String × (PStats → Nat → PStats))) : PStats × Option String :=
  ops.foldl (fun st kf => addStep d kf.1 kf.2 st) (s, none)

/-- The conditional `if stats_dict["files_processed"] > 0:
increment_files_processed()` expressed as a keyed step. -/
def filesStep : String × (PStats → Nat → PStats) :=
  ("files_processed", fun s v => if v > 0 then { s with filesProcessed := s.filesProcessed + 1 } else s)

/-- The merge block of the multiprocessing branch (pipeline.py, lines 405-416):
each counter once, then the conditional files-processed increment. -/
def multiOps : List (String × (PStats → Nat → PStats)) :=
  [("records_total", fun s v => { s with recordsTotal := s.recordsTotal + v }),
   ("records_matched", fun s v => { s with recordsMatched := s.recordsMatched + v }),
   ("records_skipped", fun s v => { s with recordsSkipped := s.recordsSkipped + v }),
   ("total_bytes_processed", fun s v => { s with totalBytes := s.totalBytes + v }),
   ("total_lines_processed", fun s v => { s with totalLines := s.totalLines + v }),
   filesStep]

/-- The merge block of the single-threaded branch (pipeline.py, lines 464-480):
the same six statements followed by a duplicated block that re-adds
`records_skipped` and then reads the keys "bytes_processed" and
"lines_processed", which the worker's `stats_dict` does not contain. -/
def singleOps : List (String × (PStats → Nat → PStats)) :=
  multiOps ++
  [("records_skipped", fun s v => { s with recordsSkipped := s.recordsSkipped + v }),
   ("bytes_processed", fun s v => { s with totalBytes := s.totalBytes + v }),
   ("lines_processed", fun s v => { s with totalLines := s.totalLines + v }),
   filesStep]

/-- Aggregation of one worker result in the multiprocessing branch. -/
def mergeMulti (s : PStats) (d : List (String × Nat)) : PStats × Option String :=
  runMerge d s multiOps

/-- Aggregation of one worker result in the single-threaded branch. -/
def mergeSingle (s : PStats) (d : List (String × Nat)) : PStats × Option String :=
  runMerge d s singleOps

/-! ## Date/time record filters (src/log_filter/domain/filters.py) -/

/-- Order-embedded calendar date of a timestamp (`record.date`); only its
presence and relative order matter to the filters. -/
def dateOrd (dt : PyDateTime) : Int := dt.year * 512 + dt.month * 32 + dt.day

/-- Order-embedded time of day of a timestamp (`record.time`). -/
def timeOrd (dt : PyDateTime) : Int :=
  (((dt.hour * 60 + dt.minute) * 60 + dt.second) * 1000000 + dt.micro : Nat)

/-- Embeds `LogRecord.date`: `None` exactly when the timestamp is absent. -/
def recDate (r : LogRecord) : Option Int := r.timestamp.map dateOrd

/-- Embeds `LogRecord.time`: `None` exactly when the timestamp is absent. -/
def recTime (r : LogRecord) : Option Int := r.timestamp.map timeOrd

/-- Embeds `DateRangeFilter.matches`: accept everything when both bounds are absent;
otherwise reject a record without a date, then check the set bounds. -/
def dateFilterMatches (dateFrom dateTo : Option Int) (rd : Option Int) : Bool :=
  if dateFrom.isNone && dateTo.isNone then true
  else
    match rd with
    | none => false
    | some d =>
      if (match dateFrom with | some f => decide (d < f) | none => false) then false
      else if (match dateTo with | some t' => decide (t' < d) | none => false) then false
      else true

/-- Embeds `TimeRangeFilter.matches`: identical shape on the time projection. -/
def timeFilterMatches (timeFrom timeTo : Option Int) (rt : Option Int) : Bool :=
  if timeFrom.isNone && timeTo.isNone then true
  else
    match rt with
    | none => false
    | some d =>
      if (match timeFrom with | some f => decide (d < f) | none => false) then false
      else if (match timeTo with | some t' => decide (t' < d) | none => false) then false
      else true

/-! ## Concrete inputs used by the theorems -/

/-- A two-record file whose first record matches the query "boom" and whose
second record overflows a 60-byte record cap on its continuation line. -/
def c4lines : List String :=
  ["2025-01-01 10:00:00.000+0000 ERROR boom",
   "2025-01-01 10:00:01.000+0000 INFO ok",
   "padpadpadpadpadpadpadpadpadpadpadpad"]

/-- A single two-line record: a 39-byte start line and a 4-byte continuation. -/
def c5lines : List String :=
  ["2025-01-01 10:00:00.000+0000 ERROR boom", "tail"]

/-- A record start line carrying milliseconds and a +0500 timezone offset. -/
def c10line : String := "2025-01-01 10:00:00.123+0500 ERROR x"

/-- A log record whose timestamp is absent. -/
def noTsRecord : LogRecord :=
  { content := "x", firstLine := "x", sourceFile := "unknown", startLine := 1,
    endLine := 1, timestamp := none, level := none, sizeBytes := 1 }

/-- A worker `stats_dict` with arbitrary counter values (the pipeline worker
always sends `total_bytes_processed = total_lines_processed = 0`, cf.
`mkStatsDict`; the values are kept general here). -/
def workerDict (t m sk b l : Nat) : List (String × Nat) :=
  [("files_processed", 1), ("records_total", t), ("records_matched", m),
   ("records_skipped", sk), ("total_bytes_processed", b), ("total_lines_processed", l)]

/-! ## Claim theorems -/

/-- Claim C1: the claim says that with `word_boundary = true` and
`use_regex = false` a Word query `p` matches iff the regex `\b<escape(p)>\b`
finds a match, so `MOVE` must not match `{"event":"MOVE_SNAPSHOT"}`.  The code
disagrees: `ExpressionEvaluator` has no word-boundary mode and the pipeline
worker forwards only `ignore_case`/`use_regex`, so matching is plain substring
containment and `MOVE` matches the `MOVE_SNAPSHOT` text — contradicting the
spec scenario and the repository's own word-boundary tests. -/
theorem evaluator_ignores_word_boundary :
    pipelineEvaluate reModel { expression := "MOVE", wordBoundary := true }
        (.word "MOVE") jsonSnapshotText = .ok true
    ∧ wbMatch "MOVE" jsonSnapshotText = false
    ∧ pipelineEvaluate reModel { expression := "MOVE", wordBoundary := true }
        (.word "MOVE") jsonMoveText = .ok true
    ∧ wbMatch "MOVE" jsonMoveText = true := by decide

/-- Claim C2: the claim says that with `strip_quotes = true` the quote
characters are stripped from the pattern and from quoted runs of the text
before the substring check, so the quoted pattern `"MOVE"` must match the bare
text `MOVE`.  The code disagrees: the evaluator has no quote-stripping mode
(the flag never leaves `SearchConfig`), the check is plain substring
containment, and the quoted pattern fails — while the spec-modelled stripped
check succeeds, as the repository's own quote-stripping tests expect. -/
theorem evaluator_ignores_strip_quotes :
    pipelineEvaluate reModel { expression := "MOVE", stripQuotes := true }
        (.word "\"MOVE\"") "MOVE" = .ok false
    ∧ substrCheck (stripRuns "\"MOVE\"") (stripRuns "MOVE") = true := by decide

/-- Claim C3: the multiprocessing branch merges each per-file counter into the
global statistics exactly once, but the single-threaded branch contains a
duplicated merge block: it adds `records_skipped` a second time and then
raises `KeyError` on the nonexistent key "bytes_processed", so the counters
are not merged exactly once there. -/
theorem stats_merged_once_single_thread_bug (s : PStats) (t m sk b l : Nat) :
    mergeMulti s (workerDict t m sk b l)
      = ({ recordsTotal := s.recordsTotal + t, recordsMatched := s.recordsMatched + m,
           recordsSkipped := s.recordsSkipped + sk, totalBytes := s.totalBytes + b,
           totalLines := s.totalLines + l, filesProcessed := s.filesProcessed + 1 }, none)
    ∧ mergeSingle s (workerDict t m sk b l)
      = ({ recordsTotal := s.recordsTotal + t, recordsMatched := s.recordsMatched + m,
           recordsSkipped := s.recordsSkipped + sk + sk, totalBytes := s.totalBytes + b,
           totalLines := s.totalLines + l, filesProcessed := s.filesProcessed + 1 },
         some "KeyError: bytes_processed") :=
  ⟨rfl, rfl⟩

/-- Claim C4: on `RecordSizeExceededError` the pipeline worker
`_process_file_worker` falls into its generic `except` clause and returns
`(0, None, [], error)`: the match already produced by the first record is
discarded, not retained, and no skipped-with-reason counter is recorded
(the orchestrator only logs the error).  `FileWorker.process_file` — which
the pipeline does not call — does retain the count and the skip reason. -/
theorem record_size_error_discards_matches :
    processFileWorker reModel {} (.word "boom") (fun _ => true) defaultStartMatch
        (some 60) false "f.log" c4lines
      = { matchCount := 0, statsDict := none, matchedRecords := [],
          err := some (.recordSize ⟨72, 60⟩) }
    ∧ fileWorkerProcess reModel {} (.word "boom") (fun _ => true) defaultStartMatch
        (some 60) c4lines
      = (1, some "record-size-exceeded")
    ∧ ((parseLines defaultStartMatch (some 60) c4lines).1.map fun r =>
          evaluateNode reModel [] {} (.word "boom") r.content) = [.ok true] := by decide

/-- Claim C5 counterexample: for the two-line record assembled from
`c5lines`, `size_bytes` is 43 (the summed byte lengths of the two lines) while
the UTF-8 length of `content` (the lines joined by a newline) is 44 — the
joining newlines are not counted, so `size_bytes` is not the byte length of
`content`. -/
theorem record_size_bytes_counterexample :
    ((parseLines defaultStartMatch none c5lines).1.map fun r =>
        (r.sizeBytes, byteLen r.content)) = [(43, 44)]
    ∧ (43 : Nat) ≠ 44 := by decide

/-- Claim C6 counterexample: in regex mode, evaluating a Word whose pattern
fails to compile does not return false — `_match_regex` raises
`EvaluationError`, exactly as the repository's own `test_invalid_regex`
expects. -/
theorem invalid_regex_raises_counterexample :
    evaluateNode reModel [] { ignoreCase := false, useRegex := true }
        (.word "[invalid") "any text" = .error (.invalidRegex "[invalid") := by decide

/-- Claim C9 counterexample: a `DateRangeFilter` or `TimeRangeFilter`
constructed with both bounds absent takes the early `return True` branch and
accepts a record with a missing timestamp, instead of rejecting it as the
claim states. -/
theorem unbounded_filter_accepts_missing_timestamp :
    dateFilterMatches none none (recDate noTsRecord) = true
    ∧ timeFilterMatches none none (recTime noTsRecord) = true := by decide

/-- Claim C10 counterexample: the record start pattern's capture groups hold
only `YYYY-MM-DD` and `HH:MM:SS`, so `_create_record` parses
"2025-01-01 10:00:00" — the third format specifier succeeds and the stored
timestamp is a naive instant (`tz = none`), not one carrying the line's +0500
offset. -/
theorem timestamp_offset_dropped_counterexample :
    ((parseLines defaultStartMatch none [c10line]).1.map LogRecord.timestamp)
      = [some ⟨2025, 1, 1, 10, 0, 0, 0, none⟩] := by decide

/-- Claim C8: the evaluator computes classical negation, conjunction and
disjunction of its operands, with Python's short-circuit: an `And` whose left
operand is false (and an `Or` whose left operand is true) never evaluates the
right operand, so an erroring right operand cannot affect the result. -/
theorem evaluator_boolean_algebra (compile : String → Option (String → Bool))
    (cache : List (String × (String → Bool))) (cfg : EvalConfig) (x y : ASTNode)
    (t : String) :
    evaluateNode compile cache cfg (.not x) t
        = (evaluateNode compile cache cfg x t).map (fun b => !b)
    ∧ (∀ a b, evaluateNode compile cache cfg x t = .ok a →
        evaluateNode compile cache cfg y t = .ok b →
        evaluateNode compile cache cfg (.and x y) t = .ok (a && b)
        ∧ evaluateNode compile cache cfg (.or x y) t = .ok (a || b))
    ∧ (evaluateNode compile cache cfg x t = .ok false →
        evaluateNode compile cache cfg (.and x y) t = .ok false)
    ∧ (evaluateNode compile cache cfg x t = .ok true →
        evaluateNode compile cache cfg (.or x y) t = .ok true) := by
  refine ⟨?_, ?_, ?_, ?_⟩
  · cases h : evaluateNode compile cache cfg x t <;>
      simp [evaluateNode, h, Except.map, Bind.bind, Except.bind, Pure.pure, Except.pure]
  · intro a b hx hy
    cases a <;> cases b <;>
      simp [evaluateNode, hx, hy, Bind.bind, Except.bind, Pure.pure, Except.pure]
  · intro hx
    simp [evaluateNode, hx, Bind.bind, Except.bind, Pure.pure, Except.pure]
  · intro hx
    simp [evaluateNode, hx, Bind.bind, Except.bind, Pure.pure, Except.pure]

/-- Witness for C8 at concrete operands and text. -/
theorem evaluator_boolean_algebra_witness :
    evaluateNode reModel [] {} (.and (.word "AA") (.word "BB")) "AABB" = .ok true
    ∧ evaluateNode reModel [] {} (.or (.word "AA") (.word "ZZ")) "AABB" = .ok true :=
  ⟨((evaluator_boolean_algebra reModel [] {} (.word "AA") (.word "BB") "AABB").2.1
      true true (by decide) (by decide)).1,
   (evaluator_boolean_algebra reModel [] {} (.word "AA") (.word "ZZ") "AABB").2.2.2
      (by decide)⟩

/-- Looking up a key in an extended association list still fails when it
failed in the prefix and differs from the appended key. -/
theorem lookup_append_single {β : Type} (acc : List (String × β)) (p q : String)
    (r : β) (h : acc.lookup q = none) :
    (acc ++ [(p, r)]).lookup q = if q == p then some r else none := by
  induction acc with
  | nil => cases hqp : q == p <;> simp [List.lookup, hqp]
  | cons a tl ih =>
    rw [List.lookup] at h
    by_cases hqa : (q == a.1) = true
    · simp [hqa] at h
    · simp only [Bool.not_eq_true] at hqa
      simp only [hqa] at h
      simp [List.lookup, hqa, ih h]

/-- Patterns that fail to compile never enter the accumulator of
`compile_patterns_from_ast`. -/
theorem collect_lookup_none (compile : String → Option (String → Bool))
    (q : String) (hq : compile q = none) (ast : ASTNode) :
    ∀ acc : List (String × (String → Bool)), acc.lookup q = none →
      (collectCompile compile ast acc).lookup q = none := by
  induction ast with
  | word p =>
    intro acc hacc
    by_cases hcond : p ≠ "" ∧ (acc.lookup p).isNone
    · simp only [collectCompile, if_pos hcond]
      cases hc : compile p with
      | none => exact hacc
      | some r =>
        rw [lookup_append_single acc p q r hacc]
        have hne : (q == p) = false := by
          rw [beq_eq_false_iff_ne]
          intro hqp
          rw [hqp, hc] at hq
          exact Option.noConfusion hq
        simp [hne]
    · simp only [collectCompile, if_neg hcond]
      exact hacc
  | not x ihx => intro acc hacc; exact ihx acc hacc
  | and x y ihx ihy => intro acc hacc; exact ihy _ (ihx acc hacc)
  | or x y ihx ihy => intro acc hacc; exact ihy _ (ihx acc hacc)

/-- Claim C6 (amended): in regex mode a Word whose pattern is not in the
compiled cache and fails to compile raises an `EvaluationError` — it does not
return false — and pattern precompilation silently omits every pattern that
fails to compile (so precompilation itself never aborts, and no all-patterns-
fail abort exists anywhere). -/
theorem invalid_regex_raises_amended :
    (∀ (compile : String → Option (String → Bool))
        (cache : List (String × (String → Bool))) (cfg : EvalConfig) (p t : String),
        cfg.useRegex = true → p ≠ "" → cache.lookup p = none → compile p = none →
        evaluateNode compile cache cfg (.word p) t = .error (.invalidRegex p))
    ∧ (∀ (compile : String → Option (String → Bool)) (ast : ASTNode) (q : String),
        compile q = none → (compilePatternsFromAst compile ast).lookup q = none) := by
  constructor
  · intro compile cache cfg p t hreg hp hcache hcomp
    simp [evaluateNode, matchPattern, hp, hreg, matchRegex, hcache, hcomp]
  · intro compile ast q hq
    exact collect_lookup_none compile q hq ast [] rfl

/-- Witness for the amended C6 at the invalid pattern "[invalid". -/
theorem invalid_regex_raises_amended_witness :
    evaluateNode reModel [] ⟨false, true⟩ (.word "[invalid") "x"
        = .error (.invalidRegex "[invalid")
    ∧ (compilePatternsFromAst reModel (.word "[invalid")).lookup "[invalid" = none :=
  ⟨invalid_regex_raises_amended.1 reModel [] ⟨false, true⟩ "[invalid" "x" rfl
      (by decide) rfl rfl,
   invalid_regex_raises_amended.2 reModel (.word "[invalid") "[invalid" rfl⟩

/-- Claim C9 (amended): a date or time filter with at least one bound present
rejects every record whose timestamp is absent; with both bounds absent the
filter takes its early `return True` and accepts everything, including
records without a timestamp. -/
theorem bounded_filter_rejects_missing_timestamp (df dt' : Option Int)
    (r : LogRecord) (hts : r.timestamp = none) (hb : df.isSome ∨ dt'.isSome) :
    dateFilterMatches df dt' (recDate r) = false
    ∧ timeFilterMatches df dt' (recTime r) = false := by
  have hd : recDate r = none := by simp [recDate, hts]
  have ht : recTime r = none := by simp [recTime, hts]
  rw [hd, ht]
  cases df <;> cases dt' <;>
    simp_all [dateFilterMatches, timeFilterMatches]

/-- Witness for the amended C9 at a filter with one bound set. -/
theorem bounded_filter_rejects_missing_timestamp_witness :
    dateFilterMatches (some 1) none (recDate noTsRecord) = false
    ∧ timeFilterMatches (some 1) none (recTime noTsRecord) = false :=
  bounded_filter_rejects_missing_timestamp (some 1) none noTsRecord rfl (Or.inl rfl)

/-- With no size cap the parser never raises, and it emits one record per
line in the buffer plus one per start line still to come. -/
theorem parseGo_count (startM : String → Option Groups) :
    ∀ (lines : List String) (n : Nat) (buf : List String) (size : Nat)
      (info : Option Groups) (s : Nat),
      (parseGo startM none lines n buf size info s).2 = none
      ∧ (parseGo startM none lines n buf size info s).1.length
          = lines.countP (fun l => (startM l).isSome)
            + (if buf.isEmpty then 0 else 1) := by
  intro lines
  induction lines with
  | nil =>
    intro n buf size info s
    cases hb : buf.isEmpty <;> simp [parseGo, hb]
  | cons l rest ih =>
    intro n buf size info s
    cases hs : startM l with
    | some g =>
      obtain ⟨ih2, ih1⟩ := ih (n + 1) [l] (byteLen l) (some g) (n + 1)
      cases buf with
      | nil =>
        constructor
        · simpa [parseGo, hs, capExceeded] using ih2
        · simp [parseGo, hs, capExceeded, ih1, List.countP_cons]
      | cons b bs =>
        constructor
        · simpa [parseGo, hs, capExceeded] using ih2
        · simp [parseGo, hs, capExceeded, ih1, List.countP_cons]
    | none =>
      cases buf with
      | nil =>
        obtain ⟨ih2, ih1⟩ := ih (n + 1) [] size info s
        constructor
        · simpa [parseGo, hs] using ih2
        · simp [parseGo, hs, ih1, List.countP_cons]
      | cons b bs =>
        obtain ⟨ih2, ih1⟩ := ih (n + 1) (b :: (bs ++ [l])) (size + byteLen l) info s
        constructor
        · simpa [parseGo, hs, capExceeded] using ih2
        · simp [parseGo, hs, capExceeded, ih1, List.countP_cons]

/-- The contents and the error of the parsed records do not depend on the
running line number or the recorded start line. -/
theorem parseGo_shift (startM : String → Option Groups) (cap : Option Nat) :
    ∀ (lines : List String) (n n' : Nat) (buf : List String) (size : Nat)
      (info : Option Groups) (s s' : Nat),
      ((parseGo startM cap lines n buf size info s).1.map LogRecord.content
        = (parseGo startM cap lines n' buf size info s').1.map LogRecord.content)
      ∧ (parseGo startM cap lines n buf size info s).2
          = (parseGo startM cap lines n' buf size info s').2 := by
  intro lines
  induction lines with
  | nil =>
    intro n n' buf size info s s'
    cases hb : buf.isEmpty <;> simp [parseGo, hb, mkRecord]
  | cons l rest ih =>
    intro n n' buf size info s s'
    cases hs : startM l with
    | some g =>
      obtain ⟨ihc, ihe⟩ := ih (n + 1) (n' + 1) [l] (byteLen l) (some g) (n + 1) (n' + 1)
      cases hcap : capExceeded cap (byteLen l) <;>
        cases buf <;>
          simp [parseGo, hs, hcap, mkRecord, ihc, ihe]
    | none =>
      cases buf with
      | nil =>
        obtain ⟨ihc, ihe⟩ := ih (n + 1) (n' + 1) [] size info s s'
        simp [parseGo, hs, ihc, ihe]
      | cons b bs =>
        obtain ⟨ihc, ihe⟩ :=
          ih (n + 1) (n' + 1) (b :: (bs ++ [l])) (size + byteLen l) info s s'
        cases hcap : capExceeded cap (size + byteLen l) <;>
          simp [parseGo, hs, hcap, ihc, ihe]

/-- Lines before the first start line are discarded without touching the
state, except for the line counter. -/
theorem parseGo_orphan (startM : String → Option Groups) (cap : Option Nat) :
    ∀ (pre : List String), (∀ l ∈ pre, startM l = none) →
      ∀ (rest : List String) (n : Nat) (size : Nat) (info : Option Groups) (s : Nat),
        parseGo startM cap (pre ++ rest) n [] size info s
          = parseGo startM cap rest (n + pre.length) [] size info s := by
  intro pre
  induction pre with
  | nil => intro _ rest n size info s; simp
  | cons p ps ih =>
    intro h rest n size info s
    have hp : startM p = none := h p (List.mem_cons_self p ps)
    have hps : ∀ l ∈ ps, startM l = none := fun l hl => h l (List.mem_cons_of_mem p hl)
    have harith : n + (ps.length + 1) = n + 1 + ps.length := by omega
    simp only [List.cons_append, parseGo, hp, List.isEmpty, List.length_cons, harith]
    exact ih hps rest (n + 1) size info s

/-- Claim C7: without a record-size cap the assembler raises no error and
emits exactly one record per line matching the start pattern; lines preceding
the first start line leave the emitted contents unchanged; the empty stream
yields no records and no error. -/
theorem assembler_record_count :
    (∀ (startM : String → Option Groups) (lines : List String),
        (parseLines startM none lines).2 = none
        ∧ (parseLines startM none lines).1.length
            = lines.countP fun l => (startM l).isSome)
    ∧ (∀ (startM : String → Option Groups) (pre rest : List String),
        (∀ l ∈ pre, startM l = none) →
        (parseLines startM none (pre ++ rest)).1.map LogRecord.content
          = (parseLines startM none rest).1.map LogRecord.content)
    ∧ ∀ (startM : String → Option Groups), parseLines startM none [] = ([], none) := by
  refine ⟨?_, ?_, ?_⟩
  · intro startM lines
    have h := parseGo_count startM lines 0 [] 0 none 1
    simpa [parseLines] using h
  · intro startM pre rest h
    rw [parseLines, parseLines, parseGo_orphan startM none pre h rest 0 0 none 1]
    exact (parseGo_shift startM none rest (0 + pre.length) 0 [] 0 none 1 1).1
  · intro startM; rfl

/-- Witness for C7 on a concrete two-line record with an orphan prefix. -/
theorem assembler_record_count_witness :
    ((parseLines defaultStartMatch none c5lines).2 = none
      ∧ (parseLines defaultStartMatch none c5lines).1.length
          = c5lines.countP fun l => (defaultStartMatch l).isSome)
    ∧ (parseLines defaultStartMatch none (["junk"] ++ c5lines)).1.map LogRecord.content
        = (parseLines defaultStartMatch none c5lines).1.map LogRecord.content :=
  ⟨assembler_record_count.1 defaultStartMatch c5lines,
   assembler_record_count.2.1 defaultStartMatch ["junk"] c5lines (by decide)⟩

/-- UTF-8 byte length distributes over string append. -/
theorem byteLen_append (a b : String) : byteLen (a ++ b) = byteLen a + byteLen b := by
  cases a with
  | mk da =>
    cases b with
    | mk db => simp [byteLen, String.data_append]

/-- The newline separator is one byte. -/
theorem byteLen_newline : byteLen "\n" = 1 := rfl

/-- Summed byte length distributes over list append. -/
theorem sumBytes_append (xs ys : List String) :
    sumBytes (xs ++ ys) = sumBytes xs + sumBytes ys := by
  simp [sumBytes]

/-- Joining `k` lines by newlines yields their summed byte length plus
`k - 1` separator bytes. -/
theorem byteLen_joinLines (l : List String) (h : l ≠ []) :
    byteLen (joinLines l) = sumBytes l + (l.length - 1) := by
  induction l with
  | nil => exact absurd rfl h
  | cons x xs ih =>
    cases xs with
    | nil => simp [joinLines, sumBytes]
    | cons y ys =>
      have hne : y :: ys ≠ [] := by simp
      have hstep : joinLines (x :: y :: ys) = x ++ "\n" ++ joinLines (y :: ys) := rfl
      rw [hstep, byteLen_append, byteLen_append, byteLen_newline, ih hne]
      simp [sumBytes]
      omega

/-- Every record emitted by the parser has an ordered line span, and the byte
length of its newline-joined content exceeds its `size_bytes` by exactly the
number of joining newlines (`end_line - start_line`). -/
theorem parseGo_wellformed (startM : String → Option Groups) (cap : Option Nat) :
    ∀ (lines : List String) (n : Nat) (buf : List String) (size : Nat)
      (info : Option Groups) (s : Nat),
      (buf = [] ∨ (size = sumBytes buf ∧ s + buf.length = n + 1)) →
      ∀ r ∈ (parseGo startM cap lines n buf size info s).1,
        r.startLine ≤ r.endLine
        ∧ byteLen r.content = r.sizeBytes + (r.endLine - r.startLine) := by
  intro lines
  induction lines with
  | nil =>
    intro n buf size info s hinv r hr
    cases buf with
    | nil => simp [parseGo] at hr
    | cons b bs =>
      rcases hinv with h | ⟨hsize, hline⟩
      · exact absurd h (by simp)
      · simp [parseGo] at hr
        subst hr
        have hj := byteLen_joinLines (b :: bs) (by simp)
        refine ⟨?_, ?_⟩
        · simp only [mkRecord]
          simp only [List.length_cons] at hline
          omega
        · simp only [mkRecord, hj]
          simp only [List.length_cons] at hline ⊢
          omega
  | cons l rest ih =>
    intro n buf size info s hinv r hr
    cases hs : startM l with
    | some g =>
      have hnew : ([l] : List String) = [] ∨
          (byteLen l = sumBytes [l] ∧ (n + 1) + ([l] : List String).length = (n + 1) + 1) := by
        right
        simp [sumBytes]
      cases hcap : capExceeded cap (byteLen l) with
      | true =>
        cases buf with
        | nil => simp [parseGo, hs, hcap] at hr
        | cons b bs =>
          rcases hinv with h | ⟨hsize, hline⟩
          · exact absurd h (by simp)
          · simp [parseGo, hs, hcap] at hr
            subst hr
            have hj := byteLen_joinLines (b :: bs) (by simp)
            refine ⟨?_, ?_⟩
            · simp only [mkRecord]
              simp only [List.length_cons] at hline
              omega
            · simp only [mkRecord, hj]
              simp only [List.length_cons] at hline ⊢
              omega
      | false =>
        cases buf with
        | nil =>
          simp [parseGo, hs, hcap] at hr
          exact ih (n + 1) [l] (byteLen l) (some g) (n + 1) hnew r hr
        | cons b bs =>
          rcases hinv with h | ⟨hsize, hline⟩
          · exact absurd h (by simp)
          · simp [parseGo, hs, hcap] at hr
            rcases hr with hr | hr
            · subst hr
              have hj := byteLen_joinLines (b :: bs) (by simp)
              refine ⟨?_, ?_⟩
              · simp only [mkRecord]
                simp only [List.length_cons] at hline
                omega
              · simp only [mkRecord, hj]
                simp only [List.length_cons] at hline ⊢
                omega
            · exact ih (n + 1) [l] (byteLen l) (some g) (n + 1) hnew r hr
    | none =>
      cases buf with
      | nil =>
        simp only [parseGo, hs, List.isEmpty_nil] at hr
        exact ih (n + 1) [] size info s (Or.inl rfl) r hr
      | cons b bs =>
        rcases hinv with h | ⟨hsize, hline⟩
        · exact absurd h (by simp)
        · cases hcap : capExceeded cap (size + byteLen l) with
          | true => simp [parseGo, hs, hcap] at hr
          | false =>
            simp [parseGo, hs, hcap] at hr
            refine ih (n + 1) (b :: (bs ++ [l])) (size + byteLen l) info s (Or.inr ⟨?_, ?_⟩) r hr
            · rw [hsize]
              have hassoc : (b :: (bs ++ [l])) = (b :: bs) ++ [l] := rfl
              rw [hassoc, sumBytes_append]
              simp [sumBytes]
            · simp only [List.length_cons, List.length_append] at hline ⊢
              simp
              omega

/-- Claim C5 (amended): every emitted `LogRecord` satisfies
`start_line ≤ end_line`, and `size_bytes` accounts for every byte of the
buffered lines but not the `end_line - start_line` joining newlines of
`content`: `byteLen content = size_bytes + (end_line - start_line)` (so the
two agree exactly on single-line records). -/
theorem record_invariants_amended (startM : String → Option Groups)
    (cap : Option Nat) (lines : List String) (r : LogRecord)
    (hr : r ∈ (parseLines startM cap lines).1) :
    r.startLine ≤ r.endLine
    ∧ byteLen r.content = r.sizeBytes + (r.endLine - r.startLine) :=
  parseGo_wellformed startM cap lines 0 [] 0 none 1 (Or.inl rfl) r hr

/-- Witness for the amended C5 on the concrete two-line record. -/
theorem record_invariants_amended_witness :
    (let r := (parseLines defaultStartMatch none c5lines).1.headD
        (mkRecord ["x"] 1 none "unknown" 1 1)
     r.startLine ≤ r.endLine
     ∧ byteLen r.content = r.sizeBytes + (r.endLine - r.startLine)) :=
  record_invariants_amended defaultStartMatch none c5lines _ (by decide)

/-- A successful `parseBase` consumes exactly the nineteen characters of
`YYYY-MM-DD HH:MM:SS`. -/
theorem parseBase_length (l : List Char) (b : Nat × Nat × Nat × Nat × Nat × Nat)
    (rest : List Char) (h : parseBase l = some (b, rest)) :
    l.length = rest.length + 19 := by
  unfold parseBase at h
  split at h
  · split at h
    · simp only [] at h
      split at h
      · injection h with h'
        rw [Prod.mk.injEq] at h'
        obtain ⟨-, h2⟩ := h'
        subst h2
        simp
      · exact Option.noConfusion h
    · exact Option.noConfusion h
  · exact Option.noConfusion h

/-- Stripping whitespace never lengthens a string. -/
theorem pyStrip_length_le (s : String) : (pyStrip s).data.length ≤ s.data.length := by
  simp only [pyStrip]
  calc (((s.data.dropWhile isPySpace).reverse.dropWhile isPySpace).reverse).length
      = ((s.data.dropWhile isPySpace).reverse.dropWhile isPySpace).length := by
        simp
    _ ≤ (s.data.dropWhile isPySpace).reverse.length :=
        (List.dropWhile_suffix isPySpace).sublist.length_le
    _ = (s.data.dropWhile isPySpace).length := by simp
    _ ≤ s.data.length := (List.dropWhile_suffix isPySpace).sublist.length_le

/-- On a string of at most nineteen characters the first two format
specifiers (which demand a dot and more after the base) fail, so any parsed
timestamp comes from `%Y-%m-%d %H:%M:%S` and is naive. -/
theorem tryFormats_short_naive (s : String) (hlen : s.data.length ≤ 19) :
    ∀ dt, tryFormats s = some dt → dt.tz = none := by
  intro dt h
  have h1 : parseFmt1 s = none := by
    unfold parseFmt1
    cases hb : parseBase s.data with
    | none => rfl
    | some p =>
      obtain ⟨b, rest⟩ := p
      have hL := parseBase_length s.data b rest hb
      cases rest with
      | nil => rfl
      | cons c cs =>
        simp only [List.length_cons] at hL
        omega
  have h2 : parseFmt2 s = none := by
    unfold parseFmt2
    cases hb : parseBase s.data with
    | none => rfl
    | some p =>
      obtain ⟨b, rest⟩ := p
      have hL := parseBase_length s.data b rest hb
      cases rest with
      | nil => rfl
      | cons c cs =>
        simp only [List.length_cons] at hL
        omega
  simp only [tryFormats, h1, h2] at h
  unfold parseFmt3 at h
  split at h
  · exact Option.noConfusion h
  · split at h
    · obtain rfl := Option.some.inj h
      rfl
    · exact Option.noConfusion h

/-- The default start pattern captures exactly ten date characters and eight
time characters. -/
theorem defaultStartMatch_group_lengths (line : String) (g : Groups)
    (h : defaultStartMatch line = some g) :
    g.dateStr.data.length = 10 ∧ g.timeStr.data.length = 8 := by
  unfold defaultStartMatch at h
  split at h
  · split at h
    · simp only [] at h
      split at h
      · exact Option.noConfusion h
      · split at h
        · exact Option.noConfusion h
        · obtain rfl := Option.some.inj h
          simp
    · exact Option.noConfusion h
  · exact Option.noConfusion h

/-- Any timestamp parsed from the default pattern's capture groups is naive:
the groups hold nineteen characters, so only the third format can succeed. -/
theorem defaultGroups_naive (line : String) (g : Groups)
    (h : defaultStartMatch line = some g) :
    ∀ dt, tryFormats (pyStrip (g.dateStr ++ " " ++ g.timeStr)) = some dt →
      dt.tz = none := by
  obtain ⟨h10, h8⟩ := defaultStartMatch_group_lengths line g h
  refine tryFormats_short_naive _ ?_
  have hcomb : (g.dateStr ++ " " ++ g.timeStr).data.length = 19 := by
    simp [String.data_append, h10, h8]
  calc (pyStrip (g.dateStr ++ " " ++ g.timeStr)).data.length
      ≤ (g.dateStr ++ " " ++ g.timeStr).data.length := pyStrip_length_le _
    _ = 19 := hcomb

/-- Records produced by the parser inherit their timestamp from a start
group; when every group can only produce naive timestamps, so does every
emitted record. -/
theorem parseGo_tz (startM : String → Option Groups) (cap : Option Nat)
    (hsafe : ∀ line g, startM line = some g →
      ∀ dt, tryFormats (pyStrip (g.dateStr ++ " " ++ g.timeStr)) = some dt → dt.tz = none) :
    ∀ (lines : List String) (n : Nat) (buf : List String) (size : Nat)
      (info : Option Groups) (s : Nat),
      (∀ g, info = some g →
        ∀ dt, tryFormats (pyStrip (g.dateStr ++ " " ++ g.timeStr)) = some dt → dt.tz = none) →
      ∀ r ∈ (parseGo startM cap lines n buf size info s).1,
        ∀ dt, r.timestamp = some dt → dt.tz = none := by
  intro lines
  induction lines with
  | nil =>
    intro n buf size info s hinfo r hr dt hdt
    cases buf with
    | nil => simp [parseGo] at hr
    | cons b bs =>
      simp [parseGo] at hr
      subst hr
      simp only [mkRecord, Option.bind_eq_some] at hdt
      obtain ⟨g, hg, hdt⟩ := hdt
      exact hinfo g hg dt hdt
  | cons l rest ih =>
    intro n buf size info s hinfo r hr dt hdt
    cases hs : startM l with
    | some g =>
      have hnewinfo : ∀ g', (some g : Option Groups) = some g' →
          ∀ dt', tryFormats (pyStrip (g'.dateStr ++ " " ++ g'.timeStr)) = some dt' →
            dt'.tz = none := by
        intro g' hg' dt' hdt'
        obtain rfl := Option.some.inj hg'
        exact hsafe l _ hs dt' hdt'
      cases hcap : capExceeded cap (byteLen l) with
      | true =>
        cases buf with
        | nil => simp [parseGo, hs, hcap] at hr
        | cons b bs =>
          simp [parseGo, hs, hcap] at hr
          subst hr
          simp only [mkRecord, Option.bind_eq_some] at hdt
          obtain ⟨g', hg', hdt⟩ := hdt
          exact hinfo g' hg' dt hdt
      | false =>
        cases buf with
        | nil =>
          simp [parseGo, hs, hcap] at hr
          exact ih (n + 1) [l] (byteLen l) (some g) (n + 1) hnewinfo r hr dt hdt
        | cons b bs =>
          simp [parseGo, hs, hcap] at hr
          rcases hr with hr | hr
          · subst hr
            simp only [mkRecord, Option.bind_eq_some] at hdt
            obtain ⟨g', hg', hdt⟩ := hdt
            exact hinfo g' hg' dt hdt
          · exact ih (n + 1) [l] (byteLen l) (some g) (n + 1) hnewinfo r hr dt hdt
    | none =>
      cases buf with
      | nil =>
        simp only [parseGo, hs, List.isEmpty_nil] at hr
        exact ih (n + 1) [] size info s hinfo r hr dt hdt
      | cons b bs =>
        cases hcap : capExceeded cap (size + byteLen l) with
        | true => simp [parseGo, hs, hcap] at hr
        | false =>
          simp [parseGo, hs, hcap] at hr
          exact ih (n + 1) (b :: (bs ++ [l])) (size + byteLen l) info s hinfo r hr dt hdt

/-- Claim C10 (amended): for every stream parsed with the default start
pattern, every stored timestamp is a naive instant — the pattern's capture
groups carry neither the milliseconds nor the `[+-]HHMM` offset, so only the
offset-free `%Y-%m-%d %H:%M:%S` specifier can succeed — and a record is
emitted for every start line whether or not its timestamp parses. -/
theorem default_timestamp_naive :
    (∀ (lines : List String) (r : LogRecord),
        r ∈ (parseLines defaultStartMatch none lines).1 →
        ∀ dt, r.timestamp = some dt → dt.tz = none)
    ∧ ∀ (lines : List String),
        (parseLines defaultStartMatch none lines).1.length
          = lines.countP fun l => (defaultStartMatch l).isSome := by
  constructor
  · intro lines r hr dt hdt
    exact parseGo_tz defaultStartMatch none
      (fun line g hg => defaultGroups_naive line g hg)
      lines 0 [] 0 none 1 (fun g hg => by cases hg) r hr dt hdt
  · intro lines
    exact (parseGo_count defaultStartMatch lines 0 [] 0 none 1).2

/-- Witness for the amended C10 on the +0500 line (naive result) and on a
line whose captured time `99:99:99` fails to parse yet still yields a
record. -/
theorem default_timestamp_naive_witness :
    (PyDateTime.mk 2025 1 1 10 0 0 0 none).tz = none
    ∧ (parseLines defaultStartMatch none
          [c10line, "2025-01-01 99:99:99.000+0000 ERROR x"]).1.length
        = [c10line, "2025-01-01 99:99:99.000+0000 ERROR x"].countP
            (fun l => (defaultStartMatch l).isSome) :=
  ⟨default_timestamp_naive.1 [c10line]
      ((parseLines defaultStartMatch none [c10line]).1.headD
        (mkRecord ["x"] 1 none "unknown" 1 1))
      (by decide) ⟨2025, 1, 1, 10, 0, 0, 0, none⟩ (by decide),
   default_timestamp_naive.2 [c10line, "2025-01-01 99:99:99.000+0000 ERROR x"]⟩

end LogFilter
